import Mathlib

/-!
Verification development for the repopatch frontend (public/js).

The JavaScript source is shallowly embedded: JS objects used as string-keyed
maps become association lists (`List (String × α)`) with first-match lookup
and in-place update, JS `Set` becomes a duplicate-free `List String` with
insertion-order `setAdd`, JS string truthiness becomes `jsTruthy`, and
asynchronous external collaborators (IndexedDB, the batch file service, the
apply service, jsdiff) become explicit environment values.  Console logging,
alerts and DOM writes other than the modelled output fields are not part of
the embedding.
-/

/-- Lookup in a JS object / `Map` modelled as an association list:
the value of the first entry whose key matches. -/
def objGet {α : Type} : List (String × α) → String → Option α
  | [], _ => none
  | (k1, v) :: t, k => if k1 = k then some v else objGet t k

/-- Property write on a JS object / `Map.set`: replace the first entry with
the given key in place, or append a new entry when the key is absent. -/
def objSet {α : Type} : List (String × α) → String → α → List (String × α)
  | [], k, v => [(k, v)]
  | (k1, v1) :: t, k, v => if k1 = k then (k, v) :: t else (k1, v1) :: objSet t k v

/-- `Set.add` of a JS `Set` of strings: append unless already present. -/
def setAdd (s : List String) (x : String) : List String :=
  if x ∈ s then s else s ++ [x]

/-- JS truthiness of a value that is a string, `null` or `undefined`
(`none` models both `null` and `undefined`): truthy iff a non-empty string. -/
def jsTruthy : Option String → Bool
  | none => false
  | some s => s != ""

/-- JS `String.prototype.includes`. -/
def strIncludes (s sub : String) : Bool :=
  sub == "" || (s.splitOn sub).length != 1

/-- JS `String.prototype.split` on a character class, modelled over the
character list so that it evaluates by kernel reduction (empty pieces from
leading/trailing/adjacent separators are kept, as in JS). -/
def splitByAux (p : Char → Bool) : List Char → List Char → List String
  | [], acc => [⟨acc.reverse⟩]
  | c :: rest, acc =>
    if p c then ⟨acc.reverse⟩ :: splitByAux p rest []
    else splitByAux p rest (c :: acc)

/-- String form of `splitByAux`. -/
def splitBy (p : Char → Bool) (s : String) : List String := splitByAux p s.data []

/-- JS `String.prototype.startsWith`, over character lists. -/
def strStartsWith (s pre : String) : Bool := pre.data.isPrefixOf s.data

/-- JS `String.prototype.substring(n)` (drop the first `n` characters),
over character lists. -/
def strDrop (s : String) (n : Nat) : String := ⟨s.data.drop n⟩

theorem objGet_objSet {α : Type} (t : List (String × α)) (k q : String) (v : α) :
    objGet (objSet t k v) q = if q = k then some v else objGet t q := by
  induction t with
  | nil =>
    by_cases h : q = k
    · simp [objGet, objSet, h]
    · have h1 : ¬ k = q := fun h2 => h h2.symm
      simp [objGet, objSet, h, h1]
  | cons kv t ih =>
    obtain ⟨k1, v1⟩ := kv
    by_cases h1 : k1 = k
    · subst h1
      by_cases h2 : q = k1
      · simp [objGet, objSet, h2]
      · have h3 : ¬ k1 = q := fun h => h2 h.symm
        simp [objGet, objSet, h2, h3]
    · by_cases h2 : k1 = q
      · have h3 : ¬ q = k := fun h => h1 (h2.trans h)
        simp [objGet, objSet, h1, h2, h3]
      · simp [objGet, objSet, h1, h2, ih]

theorem objSet_of_objGet {α : Type} (t : List (String × α)) (k : String) (v : α)
    (h : objGet t k = some v) : objSet t k v = t := by
  induction t with
  | nil => simp [objGet] at h
  | cons kv t ih =>
    obtain ⟨k1, v1⟩ := kv
    by_cases h1 : k1 = k
    · subst h1
      have h2 : v1 = v := by simpa [objGet] using h
      simp [objSet, h2]
    · simp only [objGet, if_neg h1] at h
      simp [objSet, h1, ih h]

theorem objSet_objSet {α : Type} (t : List (String × α)) (k : String) (v w : α) :
    objSet (objSet t k v) k w = objSet t k w := by
  induction t with
  | nil => simp [objSet]
  | cons kv t ih =>
    obtain ⟨k1, v1⟩ := kv
    by_cases h1 : k1 = k <;> simp [objSet, h1, ih]

/-- Keys of an association list. -/
def keysOf {α : Type} (t : List (String × α)) : List String := t.map Prod.fst

theorem keysOf_objSet {α : Type} (t : List (String × α)) (k : String) (v : α) :
    keysOf (objSet t k v) = if k ∈ keysOf t then keysOf t else keysOf t ++ [k] := by
  induction t with
  | nil => simp [keysOf, objSet]
  | cons kv t ih =>
    obtain ⟨k1, v1⟩ := kv
    by_cases h1 : k1 = k
    · subst h1
      simp [keysOf, objSet]
    · have h2 : ¬ k = k1 := fun h => h1 h.symm
      by_cases h3 : k ∈ keysOf t
      · simp only [keysOf, List.map_cons] at h3 ih ⊢
        simp [objSet, h1, ih, h2, h3]
      · simp only [keysOf, List.map_cons] at h3 ih ⊢
        simp [objSet, h1, ih, h2, h3]

theorem nodup_keysOf_objSet {α : Type} (t : List (String × α)) (k : String) (v : α)
    (h : (keysOf t).Nodup) : (keysOf (objSet t k v)).Nodup := by
  rw [keysOf_objSet]
  by_cases h1 : k ∈ keysOf t
  · simpa [h1]
  · simp only [h1, if_false]
    rw [← List.concat_eq_append]
    exact List.Nodup.concat h1 h

theorem objGet_isSome_iff_mem_keysOf {α : Type} (t : List (String × α)) (k : String) :
    (objGet t k).isSome ↔ k ∈ keysOf t := by
  induction t with
  | nil => simp [objGet, keysOf]
  | cons kv t ih =>
    obtain ⟨k1, v1⟩ := kv
    by_cases h1 : k1 = k
    · subst h1; simp [objGet, keysOf]
    · have h2 : ¬ k = k1 := fun h => h1 h.symm
      simp [objGet, keysOf, h1, h2, ih]

theorem objGet_mem {α : Type} (t : List (String × α)) (k : String) (v : α)
    (h : objGet t k = some v) : (k, v) ∈ t := by
  induction t with
  | nil => simp [objGet] at h
  | cons kv t ih =>
    obtain ⟨k1, v1⟩ := kv
    by_cases h1 : k1 = k
    · subst h1
      simp [objGet] at h
      simp [h]
    · simp [objGet, h1] at h
      exact List.mem_cons_of_mem _ (ih h)

theorem mem_setAdd (s : List String) (x q : String) :
    q ∈ setAdd s x ↔ q ∈ s ∨ q = x := by
  unfold setAdd
  by_cases h : x ∈ s
  · simp only [h, if_true]
    constructor
    · exact Or.inl
    · rintro (h1 | rfl) <;> [exact h1; exact h]
  · simp [h]

theorem nodup_setAdd (s : List String) (x : String) (h : s.Nodup) :
    (setAdd s x).Nodup := by
  unfold setAdd
  by_cases h1 : x ∈ s
  · simpa [h1]
  · simp only [h1, if_false]
    rw [← List.concat_eq_append]
    exact List.Nodup.concat h1 h

/-!
## Tree Builder (public/js/uploader.js, `addToTree`)

A JS tree node is `{ type: "file", path }` or `{ type: "folder", path, children }`
with `children` a string-keyed object; the tree itself is a string-keyed object.
-/

/-- A node of the upload file tree. -/
inductive TreeNode where
  | file (path : String)
  | folder (path : String) (children : List (String × TreeNode))
deriving Repr

/-- Path segments of `filePath.split('/').filter(Boolean)`. -/
def splitParts (filePath : String) : List String :=
  (splitBy (fun c => c == '/') filePath).filter (fun s => !s.isEmpty)

/-- The loop body of `addToTree`: walk the remaining path segments through the
tree, creating folders for missing intermediate segments; `done` holds the
segments already consumed (used for `currentPath`, the `parts.slice(0,i+1)`
join). On an intermediate segment that exists as a file, the insertion aborts
with the tree unchanged; on a terminal segment that exists as a folder, the
file insertion is skipped. -/
def addParts (t : List (String × TreeNode)) (parts : List String) (done : List String)
    (filePath : String) (isDir : Bool) : List (String × TreeNode) :=
  match parts with
  | [] => t
  | [part] =>
    if isDir then
      match objGet t part with
      | none => objSet t part (.folder filePath [])
      | some _ => t
    else
      match objGet t part with
      | none => objSet t part (.file filePath)
      | some (.file _) => objSet t part (.file filePath)
      | some (.folder _ _) => t
  | part :: next :: rest =>
    let currentPath := String.intercalate "/" (done ++ [part])
    match objGet t part with
    | none =>
      objSet t part (.folder currentPath (addParts [] (next :: rest) (done ++ [part]) filePath isDir))
    | some (.folder p ch) =>
      objSet t part (.folder p (addParts ch (next :: rest) (done ++ [part]) filePath isDir))
    | some (.file _) => t

/-- `addToTree(tree, filePath, isDir)` from uploader.js. The conflict warnings
it logs to the console are diagnostics and not part of the returned tree. -/
def addToTree (tree : List (String × TreeNode)) (filePath : String)
    (isDir : Bool := false) : List (String × TreeNode) :=
  addParts tree (splitParts filePath) [] filePath isDir

mutual

/-- Well-formedness of a node: folder children are well-formed trees. -/
def nodeWF : TreeNode → Bool
  | .file _ => true
  | .folder _ ch => treeWF ch

/-- Well-formedness of a tree object: at every level no two entries share a
name, and children are recursively well-formed. -/
def treeWF : List (String × TreeNode) → Bool
  | [] => true
  | (k, v) :: t => t.all (fun kv => kv.1 != k) && nodeWF v && treeWF t

end

/-- The walk of the path segments reaches the terminal segment through
existing folder nodes and finds it occupied by a folder node. -/
def terminalFolderConflict : List (String × TreeNode) → List String → Bool
  | _, [] => false
  | t, [p] =>
    match objGet t p with
    | some (.folder _ _) => true
    | _ => false
  | t, p :: next :: rest =>
    match objGet t p with
    | some (.folder _ ch) => terminalFolderConflict ch (next :: rest)
    | _ => false

/-- The walk of the path segments reaches the terminal segment through
existing folder nodes and finds it occupied by a file node. -/
def terminalFileConflict : List (String × TreeNode) → List String → Bool
  | _, [] => false
  | t, [p] =>
    match objGet t p with
    | some (.file _) => true
    | _ => false
  | t, p :: next :: rest =>
    match objGet t p with
    | some (.folder _ ch) => terminalFileConflict ch (next :: rest)
    | _ => false

/-- Some intermediate (non-terminal) segment of the walk, reached through
existing folder nodes, is occupied by a file node. -/
def intermediateFileConflict : List (String × TreeNode) → List String → Bool
  | _, [] => false
  | _, [_] => false
  | t, p :: next :: rest =>
    match objGet t p with
    | some (.file _) => true
    | some (.folder _ ch) => intermediateFileConflict ch (next :: rest)
    | none => false

/-- Follow a segment path through the tree, descending through folders. -/
def lookupPath : List (String × TreeNode) → List String → Option TreeNode
  | _, [] => none
  | t, [p] => objGet t p
  | t, p :: next :: rest =>
    match objGet t p with
    | some (.folder _ ch) => lookupPath ch (next :: rest)
    | _ => none

/-!
## Content Resolver (public/js/fileContent.js, `fetchPatchRequiredFiles`)
-/

/-- One entry of the result map: `{ content: string|null, error: string|null }`.
JS also distinguishes `undefined` from `null`; both are modelled as `none`
(the code only ever stores `null` or a value in these fields, except that a
server file result may omit `content`, which `none` also covers). -/
structure FileResult where
  content : Option String
  error : Option String
deriving Repr, DecidableEq

/-- A registered project source (one element of `state.directories`).
`path` is the server root for `type = "path"`; the empty string models a
missing/empty path (both are falsy in JS). `error` is `dir.error`. -/
structure Directory where
  id : Nat
  type : String
  path : String
  error : Option String
deriving Repr

/-- The mutable application state relevant to the claims
(public/js/state.js `state`). -/
structure AppState where
  directories : List Directory
  selectedDirectoryId : Option Nat
  failedFiles : List String
deriving Repr

/-- `state.directories.find(d => d.id === dirId)`. -/
def findDirectory (dirs : List Directory) (dirId : Nat) : Option Directory :=
  dirs.find? (fun d => d.id == dirId)

/-- One per-file record of the batch service response
(`data.files[absPath] = { success, content?, error? }`). -/
structure ServerFileResult where
  success : Bool
  content : Option String
  error : Option String
deriving Repr, DecidableEq

/-- Outcome of the `POST /api/files` round trip, as observed by the caller:
a thrown error (network failure, or the `Server error:` exception thrown on a
non-ok HTTP status — both reach the same catch block), a response whose
`data.success` or `data.files` is falsy (carrying `data.error`), or a
successful response with its `files` object. -/
inductive BatchResponse where
  | networkError (msg : String)
  | failure (error : Option String)
  | success (files : List (String × ServerFileResult))
deriving Repr

/-- External collaborators of `fetchPatchRequiredFiles`: the IndexedDB lookup
`getUploadedFile(dirId, filePath)` (resolving to content, to `null`, or
rejecting with an error message), and the batch file service. -/
structure FetchEnv where
  uploadedStore : Nat → String → Except String (Option String)
  batchResponse : BatchResponse

/-- The character class of `PathUtils.join`'s split regex `/[\\/]/`. -/
def isPathSep (c : Char) : Bool := c == '/' || c == '\\'

/-- `result.replace(/\/+/g, '/')`: collapse runs of slashes. -/
def collapseSlashesAux : List Char → List Char
  | [] => []
  | c :: rest =>
    if c = '/' then '/' :: collapseSlashesAux (rest.dropWhile (fun d => d == '/'))
    else c :: collapseSlashesAux rest
termination_by l => l.length
decreasing_by
  · simp only [List.length_cons]
    exact Nat.lt_succ_of_le (List.dropWhile_suffix _).length_le
  · simp

/-- String form of `collapseSlashesAux`. -/
def collapseSlashes (s : String) : String := ⟨collapseSlashesAux s.data⟩

/-- `PathUtils.join` from fileContent.js, specialised to its two-argument use:
split both arguments on slashes, drop empty segments, re-join with `/`,
preserving a leading slash of the first argument, then collapse `//` runs. -/
def pathJoin (a b : String) : String :=
  let parts := ((splitBy isPathSep a) ++ (splitBy isPathSep b)).filter (fun s => !s.isEmpty)
  let base := parts.headD ""
  let base := if strStartsWith a "/" then "/" ++ base else base
  collapseSlashes (parts.tail.foldl (fun acc p => acc ++ "/" ++ p) base)

/-- The `dir.type === 'uploaded'` branch: resolve each requested path against
the keyed store; content goes in as-is, a `null` result becomes the benign
not-found message, and a rejection becomes a `DB error:` entry that is also
added to `state.failedFiles`. The `Promise.all` completion order does not
matter because results are keyed by path; the embedding processes the
requests in list order. -/
def resolveUploadedFiles (env : FetchEnv) (dirId : Nat) (filePaths : List String)
    (results : List (String × FileResult)) (failed : List String) :
    List (String × FileResult) × List String :=
  match filePaths with
  | [] => (results, failed)
  | p :: rest =>
    match env.uploadedStore dirId p with
    | .ok (some c) =>
      resolveUploadedFiles env dirId rest (objSet results p ⟨some c, none⟩) failed
    | .ok none =>
      resolveUploadedFiles env dirId rest
        (objSet results p ⟨none, some "File not found in uploaded data (may be deleted by patch)"⟩)
        failed
    | .error e =>
      resolveUploadedFiles env dirId rest
        (objSet results p ⟨none, some ("DB error: " ++ e)⟩) (setAdd failed p)

/-- The first mapping pass of the `data.success && data.files` branch:
`absolutePathsToFetch.forEach((absPath, index) => ...)` with
`relPath = filePaths[index]`, embedded over the list of
(absolute, relative) pairs. -/
def mapServerResults (files : List (String × ServerFileResult))
    (pairs : List (String × String)) (results : List (String × FileResult))
    (failed : List String) : List (String × FileResult) × List String :=
  match pairs with
  | [] => (results, failed)
  | (absPath, relPath) :: rest =>
    match objGet files absPath with
    | some r =>
      if r.success then
        mapServerResults files rest (objSet results relPath ⟨r.content, none⟩) failed
      else
        let failed1 :=
          if jsTruthy r.error && !(strIncludes (r.error.getD "") "not found")
          then setAdd failed relPath else failed
        mapServerResults files rest (objSet results relPath ⟨none, r.error⟩) failed1
    | none =>
      mapServerResults files rest
        (objSet results relPath
          ⟨none, some "File not found by server (may be deleted by patch)"⟩) failed

/-- The second pass of the success branch: any requested path with no entry
in the result map yet gets a `No response from server for this file.` error
and is added to `state.failedFiles`. -/
def fillMissingResponses (filePaths : List String)
    (results : List (String × FileResult)) (failed : List String) :
    List (String × FileResult) × List String :=
  match filePaths with
  | [] => (results, failed)
  | p :: rest =>
    if (objGet results p).isSome then fillMissingResponses rest results failed
    else
      fillMissingResponses rest
        (objSet results p ⟨none, some "No response from server for this file."⟩)
        (setAdd failed p)

/-- Result of a `fetchPatchRequiredFiles` call: the returned map and the
content of `state.failedFiles` afterwards (the set is cleared at the start
of the call and only written during it). -/
structure FetchResult where
  results : List (String × FileResult)
  failedFiles : List String
deriving Repr

/-- `fetchPatchRequiredFiles(dirId, filePaths)` from fileContent.js. -/
def fetchPatchRequiredFiles (env : FetchEnv) (st : AppState) (dirId : Nat)
    (filePaths : List String) : FetchResult :=
  match findDirectory st.directories dirId with
  | none =>
    ⟨filePaths.foldl (fun r p => objSet r p ⟨none, some "Target directory not found"⟩) [], []⟩
  | some dir =>
    if dir.type = "uploaded" then
      let rf := resolveUploadedFiles env dir.id filePaths [] []
      ⟨rf.1, rf.2⟩
    else if dir.type = "path" then
      let absolutePathsToFetch := filePaths.map (fun p => pathJoin dir.path p)
      if absolutePathsToFetch.length > 0 then
        match env.batchResponse with
        | .success files =>
          let first := mapServerResults files (absolutePathsToFetch.zip filePaths) [] []
          let second := fillMissingResponses filePaths first.1 first.2
          ⟨second.1, second.2⟩
        | .failure err =>
          let errorMsg := if jsTruthy err then err.getD ""
                          else "Batch fetch failed with unknown server error"
          ⟨filePaths.foldl (fun r p => objSet r p ⟨none, some errorMsg⟩) [],
           filePaths.foldl (fun f p => setAdd f p) []⟩
        | .networkError msg =>
          ⟨filePaths.foldl (fun r p => objSet r p ⟨none, some ("Network error: " ++ msg)⟩) [],
           filePaths.foldl (fun f p => setAdd f p) []⟩
      else ⟨[], []⟩
    else
      ⟨filePaths.foldl (fun r p => objSet r p ⟨none, some ("Unsupported directory type: " ++ dir.type)⟩) [],
       filePaths.foldl (fun f p => setAdd f p) []⟩

/-!
## Patch Analyzer, Preview Renderer, Apply Orchestrator (public/js/patcher.js)
-/

/-- One hunk of a jsdiff parsed patch: `{ header, lines }`. The code also
guards against `hunk.lines` not being an array; in the embedding `lines` is
always a list, so that defensive branch is unreachable. -/
structure Hunk where
  header : Option String
  lines : List String
deriving Repr

/-- One per-file record from `Diff.parsePatch`:
`{ oldFileName, newFileName, hunks }`. `none` models an absent field;
the sentinel `"/dev/null"` is an ordinary string value. -/
structure Patch where
  oldFileName : Option String
  newFileName : Option String
  hunks : List Hunk
deriving Repr

/-- Outcome of the external `Diff.parsePatch` call: either it threw, or it
returned a (possibly empty) array of patch records. -/
inductive ParseOutcome where
  | threw (msg : String)
  | parsed (patches : List Patch)
deriving Repr

/-- JS `String.prototype.trim`, modelled over the character list so that it
evaluates by kernel reduction. -/
def strTrim (s : String) : String :=
  ⟨((s.data.dropWhile Char.isWhitespace).reverse.dropWhile Char.isWhitespace).reverse⟩

/-- `parsePatch(patchContent)` from patcher.js: wraps the external parser,
returning the parsed records or `null`; the second component is the
`setStatus(previewStatusEl, ...)` call it performs, when any. The
`Array.isArray(patches[0].hunks)` part of the validity check always holds in
the embedding. -/
def parsePatchModel (po : ParseOutcome) (patchContent : String) :
    Option (List Patch) × Option (String × Bool) :=
  match po with
  | .threw e => (none, some ("Error parsing patch: " ++ e, true))
  | .parsed [] =>
    if strTrim patchContent != "" then (none, some ("Error: Invalid patch format.", true))
    else (none, some ("", false))
  | .parsed (p0 :: rest) =>
    if !(jsTruthy p0.oldFileName) || !(jsTruthy p0.newFileName) then
      (none, some ("Error: Parsed patch structure invalid.", true))
    else (some (p0 :: rest), none)

/-- Strip a leading `a/` prefix: `s.startsWith('a/') ? s.substring(2) : s`. -/
def stripLeadingA (s : String) : String :=
  if strStartsWith s "a/" then strDrop s 2 else s

/-- Strip a leading `b/` prefix: `s.startsWith('b/') ? s.substring(2) : s`. -/
def stripLeadingB (s : String) : String :=
  if strStartsWith s "b/" then strDrop s 2 else s

/-- The `requiredFilesRelative` set built by `generatePatchPreview`
(lines 86-100): for each parsed patch whose `oldFileName` is truthy and not
`'/dev/null'`, add the `a/`-stripped old path; the `newFileName` arm of the
loop computes a stripped path but adds nothing (its `add` is commented out
in the source). Set insertion order is kept. -/
def requiredFilesRelative (patches : List Patch) : List String :=
  patches.foldl
    (fun acc patch =>
      match patch.oldFileName with
      | some old =>
        if old ≠ "" ∧ old ≠ "/dev/null" then setAdd acc (stripLeadingA old) else acc
      | none => acc)
    []

/-- `escapeHtml` from patcher.js. -/
def escapeHtml (unsafeStr : String) : String :=
  if unsafeStr = "" then ""
  else
    (((((unsafeStr.replace "&" "&amp;").replace "<" "&lt;").replace ">" "&gt;").replace
        "\"" "&quot;").replace ((Char.ofNat 39).toString) "&#039;")

/-- Render one hunk line, classified by its leading marker character
(an empty line has `charAt(0) === ''` and falls to the default arm). -/
def renderHunkLine (line : String) : String :=
  let lineContent := escapeHtml (line.drop 1)
  match line.data with
  | '+' :: _ => "<span class=\"diff-added\">+ " ++ lineContent ++ "</span>\n"
  | '-' :: _ => "<span class=\"diff-removed\">- " ++ lineContent ++ "</span>\n"
  | ' ' :: _ => "<span class=\"diff-context\">  " ++ lineContent ++ "</span>\n"
  | '\\' :: _ => "<span class=\"diff-context\">" ++ escapeHtml line ++ "</span>\n"
  | _ => "<span class=\"diff-context\">" ++ escapeHtml line ++ "</span>\n"

/-- Render one hunk: header span (with the `@@ Hunk n @@` fallback when the
header is falsy) followed by its classified lines. -/
def renderHunk (hunk : Hunk) (hunkIndex : Nat) : String :=
  let header :=
    if jsTruthy hunk.header then hunk.header.getD ""
    else "@@ Hunk " ++ toString (hunkIndex + 1) ++ " @@"
  "<span class=\"diff-header\">" ++ header ++ "</span>\n"
    ++ String.join (hunk.lines.map renderHunkLine)

/-- The annotation used when the fetched content is missing: expected for
new-file/deletion patches, a warning otherwise. -/
def missingNoteFor (patch : Patch) : String :=
  if patch.oldFileName = some "/dev/null" ∨ patch.newFileName = some "/dev/null" then
    " <span class=\"diff-info\">("
      ++ (if patch.newFileName = some "/dev/null" then "Deletion" else "New File")
      ++ ")</span>"
  else " <span class=\"diff-warning\">(Original not found - assuming empty)</span>"

/-- Render one file block of the preview; also extends `filesWithErrors`
when the file carries a fetch error whose message does not mention
`not found` (the pushed value is the possibly-undefined `fileKey`). -/
def renderPatchFile (fetchedFiles : List (String × FileResult)) (patch : Patch)
    (filesWithErrors : List (Option String)) : String × List (Option String) :=
  let oldRelPath := patch.oldFileName.map stripLeadingA
  let newRelPath := patch.newFileName.map stripLeadingB
  let fileKey :=
    if jsTruthy oldRelPath && !(oldRelPath == some "/dev/null") then oldRelPath
    else newRelPath
  let fileData :=
    match fileKey with
    | some k => objGet fetchedFiles k
    | none => none
  let fileKeyStr :=
    match fileKey with
    | some s => s
    | none => "undefined"
  let headerBase := "<div class=\"diff-file-header\">" ++ "<strong>File: " ++ fileKeyStr ++ "</strong>"
  let annotated :=
    match fileData with
    | some fd =>
      if jsTruthy fd.error && !(strIncludes (fd.error.getD "") "not found") then
        (" <span class=\"diff-error\">(Error: " ++ fd.error.getD "" ++ ")</span>",
         filesWithErrors ++ [fileKey])
      else if fd.content = none then (missingNoteFor patch, filesWithErrors)
      else ("", filesWithErrors)
    | none => (missingNoteFor patch, filesWithErrors)
  let headerHtml := headerBase ++ annotated.1 ++ "</div>\n"
  let bodyHtml :=
    if patch.hunks.isEmpty then "<div class=\"diff-info\">  (No content changes in patch)</div>\n"
    else String.join ((patch.hunks.enum.map (fun ih => renderHunk ih.2 ih.1))) ++ "\n"
  (headerHtml ++ bodyHtml, annotated.2)

/-- The `for (const patch of parsedPatches)` rendering loop. -/
def renderAllPatches (fetchedFiles : List (String × FileResult)) (patches : List Patch) :
    String × List (Option String) :=
  patches.foldl
    (fun acc patch =>
      let he := renderPatchFile fetchedFiles patch acc.2
      (acc.1 ++ he.1, he.2))
    ("", [])

/-- External collaborators of `generatePatchPreview`: the jsdiff parse
outcome for the given patch text, and the fetch environment. -/
structure PreviewEnv where
  parseOutcome : ParseOutcome
  fetchEnv : FetchEnv

/-- Observable result of a `generatePatchPreview` call: the preview body
(`patchPreviewEl.innerHTML`), the preview status line text, whether the last
`setStatus` call flagged it as an error, and `state.failedFiles` afterwards. -/
structure PreviewOutcome where
  body : String
  status : String
  statusIsError : Bool
  failedFiles : List String
deriving Repr, DecidableEq

/-- `generatePatchPreview(patchContent)` from patcher.js. `clearPreview()`
empties the body and status and clears `state.failedFiles`; every early
return therefore leaves an empty body. -/
def generatePatchPreview (env : PreviewEnv) (st : AppState) (patchContent : String) :
    PreviewOutcome :=
  if strTrim patchContent = "" then ⟨"", "Paste patch content to see preview.", false, []⟩
  else
    match st.selectedDirectoryId with
    | none => ⟨"", "Select a project source first.", true, []⟩
    | some selId =>
      match findDirectory st.directories selId with
      | none => ⟨"", "Selected project source not found.", true, []⟩
      | some dir =>
        if jsTruthy dir.error then
          ⟨"", "Cannot preview: Source has error - " ++ dir.error.getD "", true, []⟩
        else
          match parsePatchModel env.parseOutcome patchContent with
          | (none, statusUpd) =>
            let su := statusUpd.getD ("Parsing patch...", false)
            ⟨"", su.1, su.2, []⟩
          | (some parsedPatches, _) =>
            let required := requiredFilesRelative parsedPatches
            if required.isEmpty then
              ⟨"", "Patch seems empty or only affects /dev/null.", true, []⟩
            else
              let fr := fetchPatchRequiredFiles env.fetchEnv
                { st with failedFiles := [] } selId required
              let rendered := renderAllPatches fr.results parsedPatches
              if rendered.2.length > 0 then
                ⟨rendered.1,
                 "Preview generated with errors in " ++ toString rendered.2.length
                   ++ " file(s).", true, fr.failedFiles⟩
              else if fr.failedFiles.length > 0 then
                ⟨rendered.1, "Preview generated. Some files failed to fetch.", true,
                 fr.failedFiles⟩
              else ⟨rendered.1, "Preview generated successfully.", false, fr.failedFiles⟩

/-- The `/api/apply_patch` response as seen by `applyPatch`. -/
structure ApplyResponse where
  ok : Bool
  status : Nat
  success : Bool
  appliedFiles : Option (List String)
  error : Option String
  details : Option (List String)
deriving Repr

/-- Outcome of the apply round trip: the request (or the `response.json()`
read) threw, or a response arrived. -/
inductive ApplyTransport where
  | threw (msg : String)
  | responded (resp : ApplyResponse)
deriving Repr

/-- Observable result of an `applyPatch` call: the apply status line, its
error flag, and how many times the transport (`tryFetchWithFallback` on the
apply endpoint) was invoked. -/
structure ApplyOutcome where
  status : String
  statusIsError : Bool
  networkCalls : Nat
deriving Repr, DecidableEq

/-- `applyPatch(patchContent)` from patcher.js. -/
def applyPatch (tr : ApplyTransport) (st : AppState) (patchContent : String) :
    ApplyOutcome :=
  match st.selectedDirectoryId with
  | none => ⟨"Error: No project source selected.", true, 0⟩
  | some selId =>
    match findDirectory st.directories selId with
    | none => ⟨"Error: Selected project source not found.", true, 0⟩
    | some dir =>
      if dir.type = "uploaded" then
        ⟨"Error: Cannot apply patch to uploaded directories.", true, 0⟩
      else if dir.path = "" then
        ⟨"Error: Selected source has no valid path.", true, 0⟩
      else if strTrim patchContent = "" then
        ⟨"Error: Patch content is empty.", true, 0⟩
      else
        match tr with
        | .threw msg => ⟨"Network/Request error: " ++ msg, true, 1⟩
        | .responded resp =>
          if resp.ok && resp.success then
            ⟨"Patch applied successfully to "
               ++ toString ((resp.appliedFiles.getD []).length) ++ " file(s).", false, 1⟩
          else
            let errorMsg :=
              if jsTruthy resp.error then resp.error.getD ""
              else "Server responded with status " ++ toString resp.status
            let appliedCount := (resp.appliedFiles.getD []).length
            let finalError :=
              "Error applying patch: " ++ errorMsg
                ++ (if appliedCount > 0 then
                      " (" ++ toString appliedCount ++ " file(s) might have been partially applied)."
                    else "")
            ⟨finalError, true, 1⟩

/-!
## Source Registry removal (public/js/main.js, remove-button handler)
-/

/-- The remove-source handler body (main.js lines 87-93): filter the removed
id out of `state.directories` and, when it was the selected one, fall back to
the first remaining source or to no selection. -/
def removeSource (st : AppState) (remId : Nat) : AppState :=
  let directories := st.directories.filter (fun d => d.id != remId)
  let selectedDirectoryId :=
    if st.selectedDirectoryId = some remId then
      match directories with
      | [] => none
      | d :: _ => some d.id
    else st.selectedDirectoryId
  { st with directories := directories, selectedDirectoryId := selectedDirectoryId }

/-!
## Characterisation lemmas for the Content Resolver
-/

theorem objGet_foldl_const {α : Type} (l : List String) (init : List (String × α))
    (v : α) (q : String) :
    objGet (l.foldl (fun r p => objSet r p v) init) q =
      if q ∈ l then some v else objGet init q := by
  induction l generalizing init with
  | nil => simp
  | cons p rest ih =>
    simp only [List.foldl_cons, ih, objGet_objSet, List.mem_cons]
    by_cases hq : q ∈ rest
    · simp [hq]
    · by_cases hqp : q = p <;> simp [hq, hqp]

theorem nodup_keysOf_foldl_const {α : Type} (l : List String) (init : List (String × α))
    (v : α) (h : (keysOf init).Nodup) :
    (keysOf (l.foldl (fun r p => objSet r p v) init)).Nodup := by
  induction l generalizing init with
  | nil => simpa
  | cons p rest ih => exact ih _ (nodup_keysOf_objSet _ _ _ h)

theorem mem_foldl_setAdd (l : List String) (init : List String) (q : String) :
    q ∈ l.foldl (fun f p => setAdd f p) init ↔ q ∈ init ∨ q ∈ l := by
  induction l generalizing init with
  | nil => simp
  | cons p rest ih =>
    simp only [List.foldl_cons, ih, mem_setAdd, List.mem_cons]
    tauto

/-- The per-path outcome of the `uploaded` branch, as a function of the
store response for that path. -/
def uploadOutcome (env : FetchEnv) (dirId : Nat) (p : String) : FileResult :=
  match env.uploadedStore dirId p with
  | .ok (some c) => ⟨some c, none⟩
  | .ok none => ⟨none, some "File not found in uploaded data (may be deleted by patch)"⟩
  | .error e => ⟨none, some ("DB error: " ++ e)⟩

/-- Whether the `uploaded` branch adds the path to `state.failedFiles`. -/
def uploadFails (env : FetchEnv) (dirId : Nat) (p : String) : Bool :=
  match env.uploadedStore dirId p with
  | .error _ => true
  | _ => false

theorem resolveUploaded_results (env : FetchEnv) (dirId : Nat) (l : List String)
    (results : List (String × FileResult)) (failed : List String) (q : String) :
    objGet (resolveUploadedFiles env dirId l results failed).1 q =
      if q ∈ l then some (uploadOutcome env dirId q) else objGet results q := by
  induction l generalizing results failed with
  | nil => simp [resolveUploadedFiles]
  | cons p rest ih =>
    by_cases hq : q ∈ rest
    · cases h : env.uploadedStore dirId p with
      | ok c =>
        cases c <;> simp [resolveUploadedFiles, h, ih, hq]
      | error e => simp [resolveUploadedFiles, h, ih, hq]
    · by_cases hqp : q = p
      · subst hqp
        cases h : env.uploadedStore dirId q with
        | ok c =>
          cases c <;>
            simp [resolveUploadedFiles, h, ih, hq, objGet_objSet, uploadOutcome]
        | error e =>
          simp [resolveUploadedFiles, h, ih, hq, objGet_objSet, uploadOutcome]
      · cases h : env.uploadedStore dirId p with
        | ok c =>
          cases c <;> simp [resolveUploadedFiles, h, ih, hq, objGet_objSet, hqp]
        | error e => simp [resolveUploadedFiles, h, ih, hq, objGet_objSet, hqp]

theorem resolveUploaded_failed (env : FetchEnv) (dirId : Nat) (l : List String)
    (results : List (String × FileResult)) (failed : List String) (q : String) :
    q ∈ (resolveUploadedFiles env dirId l results failed).2 ↔
      q ∈ failed ∨ (q ∈ l ∧ uploadFails env dirId q = true) := by
  induction l generalizing results failed with
  | nil => simp [resolveUploadedFiles]
  | cons p rest ih =>
    by_cases hqp : q = p
    · subst hqp
      cases h : env.uploadedStore dirId q with
      | ok c =>
        cases c <;>
          simp [resolveUploadedFiles, h, ih, uploadFails, List.mem_cons]
      | error e =>
        simp [resolveUploadedFiles, h, ih, uploadFails, mem_setAdd, List.mem_cons]
    · cases h : env.uploadedStore dirId p with
      | ok c =>
        cases c <;> simp [resolveUploadedFiles, h, ih, hqp, List.mem_cons]
      | error e =>
        simp [resolveUploadedFiles, h, ih, hqp, mem_setAdd, List.mem_cons]

theorem resolveUploaded_nodup (env : FetchEnv) (dirId : Nat) (l : List String)
    (results : List (String × FileResult)) (failed : List String)
    (h : (keysOf results).Nodup) :
    (keysOf (resolveUploadedFiles env dirId l results failed).1).Nodup := by
  induction l generalizing results failed with
  | nil => simpa [resolveUploadedFiles]
  | cons p rest ih =>
    cases hs : env.uploadedStore dirId p with
    | ok c =>
      cases c <;>
        · simp only [resolveUploadedFiles, hs]
          exact ih _ _ (nodup_keysOf_objSet _ _ _ h)
    | error e =>
      simp only [resolveUploadedFiles, hs]
      exact ih _ _ (nodup_keysOf_objSet _ _ _ h)

/-- The per-path outcome of the first mapping pass of the `path` branch, as a
function of the response entry for the path's absolute form. -/
def serverOutcome (files : List (String × ServerFileResult)) (absPath : String) :
    FileResult :=
  match objGet files absPath with
  | some r => if r.success then ⟨r.content, none⟩ else ⟨none, r.error⟩
  | none => ⟨none, some "File not found by server (may be deleted by patch)"⟩

/-- Whether the first mapping pass adds the path to `state.failedFiles`:
only a present, non-successful response entry whose error is truthy and does
not mention `not found`. -/
def serverFails (files : List (String × ServerFileResult)) (absPath : String) : Bool :=
  match objGet files absPath with
  | some r =>
    !r.success && (jsTruthy r.error && !(strIncludes (r.error.getD "") "not found"))
  | none => false

theorem map_zip_self {β : Type} (l : List String) (f : String → β) :
    (l.map f).zip l = l.map (fun p => (f p, p)) := by
  induction l with
  | nil => simp
  | cons p rest ih => simp [ih]

theorem mapServer_results (files : List (String × ServerFileResult))
    (f : String → String) (l : List String) (results : List (String × FileResult))
    (failed : List String) (q : String) :
    objGet (mapServerResults files (l.map (fun p => (f p, p))) results failed).1 q =
      if q ∈ l then some (serverOutcome files (f q)) else objGet results q := by
  induction l generalizing results failed with
  | nil => simp [mapServerResults]
  | cons p rest ih =>
    by_cases hq : q ∈ rest
    · cases h : objGet files (f p) with
      | some r =>
        by_cases hs : r.success <;> simp [mapServerResults, h, hs, ih, hq]
      | none => simp [mapServerResults, h, ih, hq]
    · by_cases hqp : q = p
      · subst hqp
        cases h : objGet files (f q) with
        | some r =>
          by_cases hs : r.success <;>
            simp [mapServerResults, h, hs, ih, hq, objGet_objSet, serverOutcome]
        | none =>
          simp [mapServerResults, h, ih, hq, objGet_objSet, serverOutcome]
      · cases h : objGet files (f p) with
        | some r =>
          by_cases hs : r.success <;>
            simp [mapServerResults, h, hs, ih, hq, objGet_objSet, hqp]
        | none => simp [mapServerResults, h, ih, hq, objGet_objSet, hqp]

theorem mapServer_failed (files : List (String × ServerFileResult))
    (f : String → String) (l : List String) (results : List (String × FileResult))
    (failed : List String) (q : String) :
    q ∈ (mapServerResults files (l.map (fun p => (f p, p))) results failed).2 ↔
      q ∈ failed ∨ (q ∈ l ∧ serverFails files (f q) = true) := by
  induction l generalizing results failed with
  | nil => simp [mapServerResults]
  | cons p rest ih =>
    by_cases hqp : q = p
    · subst hqp
      cases h : objGet files (f q) with
      | some r =>
        by_cases hs : r.success
        · simp [mapServerResults, h, hs, ih, serverFails]
        · by_cases hc : (jsTruthy r.error && !(strIncludes (r.error.getD "") "not found")) = true
          · simp [mapServerResults, h, hs, ih, serverFails, hc, mem_setAdd]
          · simp [mapServerResults, h, hs, ih, serverFails, hc]
      | none => simp [mapServerResults, h, ih, serverFails]
    · cases h : objGet files (f p) with
      | some r =>
        by_cases hs : r.success
        · simp [mapServerResults, h, hs, ih, hqp]
        · by_cases hc : (jsTruthy r.error && !(strIncludes (r.error.getD "") "not found")) = true
          · simp [mapServerResults, h, hs, ih, hqp, hc, mem_setAdd]
          · simp [mapServerResults, h, hs, ih, hqp, hc]
      | none => simp [mapServerResults, h, ih, hqp]

theorem mapServer_nodup (files : List (String × ServerFileResult))
    (pairs : List (String × String)) (results : List (String × FileResult))
    (failed : List String) (h : (keysOf results).Nodup) :
    (keysOf (mapServerResults files pairs results failed).1).Nodup := by
  induction pairs generalizing results failed with
  | nil => simpa [mapServerResults]
  | cons pr rest ih =>
    obtain ⟨absPath, relPath⟩ := pr
    cases hg : objGet files absPath with
    | some r =>
      by_cases hs : r.success
      · simp only [mapServerResults, hg, hs, if_true]
        exact ih _ _ (nodup_keysOf_objSet _ _ _ h)
      · simp only [mapServerResults, hg, hs, if_false]
        exact ih _ _ (nodup_keysOf_objSet _ _ _ h)
    | none =>
      simp only [mapServerResults, hg]
      exact ih _ _ (nodup_keysOf_objSet _ _ _ h)

theorem fillMissing_of_present (l : List String) (results : List (String × FileResult))
    (failed : List String) (h : ∀ p ∈ l, (objGet results p).isSome) :
    fillMissingResponses l results failed = (results, failed) := by
  induction l with
  | nil => simp [fillMissingResponses]
  | cons p rest ih =>
    have hp : (objGet results p).isSome := h p (List.mem_cons_self _ _)
    simp only [fillMissingResponses, hp, if_true]
    exact ih (fun q hq => h q (List.mem_cons_of_mem _ hq))

theorem fetch_none_eq (env : FetchEnv) (st : AppState) (dirId : Nat)
    (filePaths : List String) (hd : findDirectory st.directories dirId = none) :
    fetchPatchRequiredFiles env st dirId filePaths =
      ⟨filePaths.foldl (fun r p => objSet r p ⟨none, some "Target directory not found"⟩) [],
       []⟩ := by
  simp [fetchPatchRequiredFiles, hd]

theorem fetch_uploaded_eq (env : FetchEnv) (st : AppState) (dirId : Nat)
    (filePaths : List String) (dir : Directory)
    (hd : findDirectory st.directories dirId = some dir)
    (ht : dir.type = "uploaded") :
    fetchPatchRequiredFiles env st dirId filePaths =
      ⟨(resolveUploadedFiles env dir.id filePaths [] []).1,
       (resolveUploadedFiles env dir.id filePaths [] []).2⟩ := by
  simp [fetchPatchRequiredFiles, hd, ht]

theorem fetch_path_success_eq (env : FetchEnv) (st : AppState) (dirId : Nat)
    (filePaths : List String) (dir : Directory)
    (files : List (String × ServerFileResult))
    (hd : findDirectory st.directories dirId = some dir)
    (ht : dir.type = "path")
    (hb : env.batchResponse = .success files)
    (hne : filePaths ≠ []) :
    fetchPatchRequiredFiles env st dirId filePaths =
      ⟨(mapServerResults files (filePaths.map (fun p => (pathJoin dir.path p, p))) [] []).1,
       (mapServerResults files (filePaths.map (fun p => (pathJoin dir.path p, p))) [] []).2⟩ := by
  have ht1 : ¬ dir.type = "uploaded" := by rw [ht]; decide
  have hlen : 0 < (filePaths.map (fun p => pathJoin dir.path p)).length := by
    simpa using List.length_pos.mpr hne
  have hzip := map_zip_self filePaths (fun p => pathJoin dir.path p)
  have hpresent : ∀ p ∈ filePaths,
      (objGet (mapServerResults files
        (filePaths.map (fun p => (pathJoin dir.path p, p))) [] []).1 p).isSome := by
    intro p hp
    rw [mapServer_results]
    simp [hp]
  simp only [fetchPatchRequiredFiles, hd, ht1, if_false, ht, if_true, hb, hlen, if_pos,
    hzip, gt_iff_lt]
  rw [fillMissing_of_present _ _ _ hpresent]
  simp

theorem fetch_path_failure_eq (env : FetchEnv) (st : AppState) (dirId : Nat)
    (filePaths : List String) (dir : Directory) (err : Option String)
    (hd : findDirectory st.directories dirId = some dir)
    (ht : dir.type = "path")
    (hb : env.batchResponse = .failure err)
    (hne : filePaths ≠ []) :
    fetchPatchRequiredFiles env st dirId filePaths =
      ⟨filePaths.foldl (fun r p => objSet r p
          ⟨none, some (if jsTruthy err then err.getD ""
                       else "Batch fetch failed with unknown server error")⟩) [],
       filePaths.foldl (fun f p => setAdd f p) []⟩ := by
  have ht1 : ¬ dir.type = "uploaded" := by rw [ht]; decide
  have hlen : 0 < (filePaths.map (fun p => pathJoin dir.path p)).length := by
    simpa using List.length_pos.mpr hne
  simp only [fetchPatchRequiredFiles, hd, ht1, if_false, ht, if_true, hb, hlen, if_pos,
    gt_iff_lt]
  simp

theorem fetch_path_networkError_eq (env : FetchEnv) (st : AppState) (dirId : Nat)
    (filePaths : List String) (dir : Directory) (msg : String)
    (hd : findDirectory st.directories dirId = some dir)
    (ht : dir.type = "path")
    (hb : env.batchResponse = .networkError msg)
    (hne : filePaths ≠ []) :
    fetchPatchRequiredFiles env st dirId filePaths =
      ⟨filePaths.foldl (fun r p => objSet r p ⟨none, some ("Network error: " ++ msg)⟩) [],
       filePaths.foldl (fun f p => setAdd f p) []⟩ := by
  have ht1 : ¬ dir.type = "uploaded" := by rw [ht]; decide
  have hlen : 0 < (filePaths.map (fun p => pathJoin dir.path p)).length := by
    simpa using List.length_pos.mpr hne
  simp only [fetchPatchRequiredFiles, hd, ht1, if_false, ht, if_true, hb, hlen, if_pos,
    gt_iff_lt]
  simp

theorem fetch_path_empty_eq (env : FetchEnv) (st : AppState) (dirId : Nat)
    (dir : Directory)
    (hd : findDirectory st.directories dirId = some dir)
    (ht : dir.type = "path") :
    fetchPatchRequiredFiles env st dirId [] = ⟨[], []⟩ := by
  have ht1 : ¬ dir.type = "uploaded" := by rw [ht]; decide
  simp [fetchPatchRequiredFiles, hd, ht1, ht]

theorem fetch_other_type_eq (env : FetchEnv) (st : AppState) (dirId : Nat)
    (filePaths : List String) (dir : Directory)
    (hd : findDirectory st.directories dirId = some dir)
    (ht1 : ¬ dir.type = "uploaded") (ht2 : ¬ dir.type = "path") :
    fetchPatchRequiredFiles env st dirId filePaths =
      ⟨filePaths.foldl (fun r p => objSet r p
          ⟨none, some ("Unsupported directory type: " ++ dir.type)⟩) [],
       filePaths.foldl (fun f p => setAdd f p) []⟩ := by
  simp [fetchPatchRequiredFiles, hd, ht1, ht2]

theorem fetch_results_isSome (env : FetchEnv) (st : AppState) (dirId : Nat)
    (filePaths : List String) (q : String) :
    (objGet (fetchPatchRequiredFiles env st dirId filePaths).results q).isSome ↔
      q ∈ filePaths := by
  cases hd : findDirectory st.directories dirId with
  | none =>
    rw [fetch_none_eq env st dirId filePaths hd]
    simp only
    rw [objGet_foldl_const]
    by_cases hq : q ∈ filePaths <;> simp [hq, objGet]
  | some dir =>
    by_cases ht1 : dir.type = "uploaded"
    · rw [fetch_uploaded_eq env st dirId filePaths dir hd ht1]
      simp only
      rw [resolveUploaded_results]
      by_cases hq : q ∈ filePaths <;> simp [hq, objGet]
    · by_cases ht2 : dir.type = "path"
      · cases hfp : filePaths with
        | nil =>
          rw [fetch_path_empty_eq env st dirId dir hd ht2]
          simp [objGet]
        | cons a as =>
          cases hb : env.batchResponse with
          | success files =>
            rw [fetch_path_success_eq env st dirId (a :: as) dir files hd ht2 hb (by simp)]
            simp only
            rw [mapServer_results]
            by_cases hq : q ∈ a :: as <;> simp [hq, objGet]
          | failure err =>
            rw [fetch_path_failure_eq env st dirId (a :: as) dir err hd ht2 hb (by simp)]
            simp only
            rw [objGet_foldl_const]
            by_cases hq : q ∈ a :: as <;> simp [hq, objGet]
          | networkError msg =>
            rw [fetch_path_networkError_eq env st dirId (a :: as) dir msg hd ht2 hb (by simp)]
            simp only
            rw [objGet_foldl_const]
            by_cases hq : q ∈ a :: as <;> simp [hq, objGet]
      · rw [fetch_other_type_eq env st dirId filePaths dir hd ht1 ht2]
        simp only
        rw [objGet_foldl_const]
        by_cases hq : q ∈ filePaths <;> simp [hq, objGet]

theorem fetch_results_nodup (env : FetchEnv) (st : AppState) (dirId : Nat)
    (filePaths : List String) :
    (keysOf (fetchPatchRequiredFiles env st dirId filePaths).results).Nodup := by
  cases hd : findDirectory st.directories dirId with
  | none =>
    rw [fetch_none_eq env st dirId filePaths hd]
    exact nodup_keysOf_foldl_const _ _ _ (by simp [keysOf])
  | some dir =>
    by_cases ht1 : dir.type = "uploaded"
    · rw [fetch_uploaded_eq env st dirId filePaths dir hd ht1]
      exact resolveUploaded_nodup _ _ _ _ _ (by simp [keysOf])
    · by_cases ht2 : dir.type = "path"
      · cases hfp : filePaths with
        | nil =>
          rw [fetch_path_empty_eq env st dirId dir hd ht2]
          simp [keysOf]
        | cons a as =>
          cases hb : env.batchResponse with
          | success files =>
            rw [fetch_path_success_eq env st dirId (a :: as) dir files hd ht2 hb (by simp)]
            exact mapServer_nodup _ _ _ _ (by simp [keysOf])
          | failure err =>
            rw [fetch_path_failure_eq env st dirId (a :: as) dir err hd ht2 hb (by simp)]
            exact nodup_keysOf_foldl_const _ _ _ (by simp [keysOf])
          | networkError msg =>
            rw [fetch_path_networkError_eq env st dirId (a :: as) dir msg hd ht2 hb (by simp)]
            exact nodup_keysOf_foldl_const _ _ _ (by simp [keysOf])
      · rw [fetch_other_type_eq env st dirId filePaths dir hd ht1 ht2]
        exact nodup_keysOf_foldl_const _ _ _ (by simp [keysOf])

/-- Well-formedness of the batch service response with respect to its own
interface contract: a successful per-file record carries content, a failed
one carries an error message. -/
def batchWellFormed : BatchResponse → Bool
  | .success files =>
    files.all (fun kr =>
      (!kr.2.success || kr.2.content.isSome) && (kr.2.success || kr.2.error.isSome))
  | _ => true

theorem fetch_results_entry (env : FetchEnv) (st : AppState) (dirId : Nat)
    (filePaths : List String) (hwf : batchWellFormed env.batchResponse = true)
    (q : String) (r : FileResult)
    (h : objGet (fetchPatchRequiredFiles env st dirId filePaths).results q = some r) :
    r.content.isSome ∨ r.error.isSome := by
  cases hd : findDirectory st.directories dirId with
  | none =>
    rw [fetch_none_eq env st dirId filePaths hd] at h
    simp only at h
    rw [objGet_foldl_const] at h
    by_cases hq : q ∈ filePaths
    · simp only [hq, if_true, Option.some.injEq] at h
      subst h; simp
    · simp [hq, objGet] at h
  | some dir =>
    by_cases ht1 : dir.type = "uploaded"
    · rw [fetch_uploaded_eq env st dirId filePaths dir hd ht1] at h
      simp only at h
      rw [resolveUploaded_results] at h
      by_cases hq : q ∈ filePaths
      · simp only [hq, if_true, Option.some.injEq] at h
        subst h
        unfold uploadOutcome
        cases hs : env.uploadedStore dir.id q with
        | ok c => cases c <;> simp
        | error e => simp
      · simp [hq, objGet] at h
    · by_cases ht2 : dir.type = "path"
      · cases hfp : filePaths with
        | nil =>
          rw [hfp] at h
          rw [fetch_path_empty_eq env st dirId dir hd ht2] at h
          simp [objGet] at h
        | cons a as =>
          rw [hfp] at h
          cases hb : env.batchResponse with
          | success files =>
            rw [fetch_path_success_eq env st dirId (a :: as) dir files hd ht2 hb (by simp)] at h
            simp only at h
            rw [mapServer_results] at h
            by_cases hq : q ∈ a :: as
            · simp only [hq, if_true, Option.some.injEq] at h
              subst h
              unfold serverOutcome
              cases hg : objGet files (pathJoin dir.path q) with
              | some fr =>
                have hmem := objGet_mem _ _ _ hg
                rw [hb] at hwf
                simp only [batchWellFormed, List.all_eq_true] at hwf
                have := hwf _ hmem
                by_cases hs : fr.success
                · simp only [hs, if_true]
                  simp [hs] at this
                  simp [this]
                · simp only [hs, if_false]
                  simp [hs] at this
                  simp [this]
              | none => simp
            · simp [hq, objGet] at h
          | failure err =>
            rw [fetch_path_failure_eq env st dirId (a :: as) dir err hd ht2 hb (by simp)] at h
            simp only at h
            rw [objGet_foldl_const] at h
            by_cases hq : q ∈ a :: as
            · simp only [hq, if_true, Option.some.injEq] at h
              subst h; simp
            · simp [hq, objGet] at h
          | networkError msg =>
            rw [fetch_path_networkError_eq env st dirId (a :: as) dir msg hd ht2 hb (by simp)] at h
            simp only at h
            rw [objGet_foldl_const] at h
            by_cases hq : q ∈ a :: as
            · simp only [hq, if_true, Option.some.injEq] at h
              subst h; simp
            · simp [hq, objGet] at h
      · rw [fetch_other_type_eq env st dirId filePaths dir hd ht1 ht2] at h
        simp only at h
        rw [objGet_foldl_const] at h
        by_cases hq : q ∈ filePaths
        · simp only [hq, if_true, Option.some.injEq] at h
          subst h; simp
        · simp [hq, objGet] at h

/-- C3: For every source id (existing or not, of any kind) and every list of
requested relative paths, `fetchPatchRequiredFiles` returns a map with
exactly one entry per requested path — an entry exists iff the path was
requested, and the map's keys are duplicate-free — and, provided the batch
service honours its own per-file response shape, every entry holds content
or an error reason. -/
theorem fetchPatchRequiredFiles_complete (env : FetchEnv) (st : AppState) (dirId : Nat)
    (filePaths : List String) (hwf : batchWellFormed env.batchResponse = true) :
    (∀ p, (objGet (fetchPatchRequiredFiles env st dirId filePaths).results p).isSome ↔
        p ∈ filePaths) ∧
    (keysOf (fetchPatchRequiredFiles env st dirId filePaths).results).Nodup ∧
    (∀ p r, objGet (fetchPatchRequiredFiles env st dirId filePaths).results p = some r →
        r.content.isSome ∨ r.error.isSome) :=
  ⟨fun p => fetch_results_isSome env st dirId filePaths p,
   fetch_results_nodup env st dirId filePaths,
   fun p r h => fetch_results_entry env st dirId filePaths hwf p r h⟩

/-- Concrete remote source for the C3 witness. -/
def dirW3 : Directory := ⟨1, "path", "/root", none⟩

/-- Concrete state for the C3 witness. -/
def stW3 : AppState := ⟨[dirW3], some 1, []⟩

/-- Concrete environment for the C3 witness. -/
def envW3 : FetchEnv :=
  ⟨fun _ _ => .ok none, .success [("/root/a.txt", ⟨true, some "hello", none⟩)]⟩

/-- Witness for C3 at a concrete remote source and a one-path request. -/
theorem fetchPatchRequiredFiles_complete_witness :
    batchWellFormed envW3.batchResponse = true ∧
    ((objGet (fetchPatchRequiredFiles envW3 stW3 1 ["a.txt"]).results "a.txt").isSome ↔
      "a.txt" ∈ ["a.txt"]) ∧
    (keysOf (fetchPatchRequiredFiles envW3 stW3 1 ["a.txt"]).results).Nodup :=
  ⟨by decide,
   (fetchPatchRequiredFiles_complete envW3 stW3 1 ["a.txt"] (by decide)).1 "a.txt",
   (fetchPatchRequiredFiles_complete envW3 stW3 1 ["a.txt"] (by decide)).2.1⟩

/-- C5: For a local (`uploaded`-kind) source found by id, a requested path
whose key is missing from the keyed content store resolves to a not-found
outcome (no content, message that the file was not found in uploaded data)
and is NOT added to `state.failedFiles`, while a store lookup exception
resolves to a `DB error:` outcome and IS added to `state.failedFiles`. -/
theorem fetchPatchRequiredFiles_uploaded_missing_vs_error (env : FetchEnv)
    (st : AppState) (dirId : Nat) (filePaths : List String) (dir : Directory)
    (p : String)
    (hd : findDirectory st.directories dirId = some dir)
    (ht : dir.type = "uploaded") (hp : p ∈ filePaths) :
    (env.uploadedStore dir.id p = .ok none →
       objGet (fetchPatchRequiredFiles env st dirId filePaths).results p =
         some ⟨none, some "File not found in uploaded data (may be deleted by patch)"⟩ ∧
       p ∉ (fetchPatchRequiredFiles env st dirId filePaths).failedFiles) ∧
    (∀ e, env.uploadedStore dir.id p = .error e →
       objGet (fetchPatchRequiredFiles env st dirId filePaths).results p =
         some ⟨none, some ("DB error: " ++ e)⟩ ∧
       p ∈ (fetchPatchRequiredFiles env st dirId filePaths).failedFiles) := by
  rw [fetch_uploaded_eq env st dirId filePaths dir hd ht]
  refine ⟨fun hs => ⟨?_, ?_⟩, fun e hs => ⟨?_, ?_⟩⟩
  · simp [resolveUploaded_results, hp, uploadOutcome, hs]
  · simp [resolveUploaded_failed, uploadFails, hs]
  · simp [resolveUploaded_results, hp, uploadOutcome, hs]
  · simp [resolveUploaded_failed, uploadFails, hs, hp]

/-- Concrete local source for the C5 witness. -/
def dirW5 : Directory := ⟨2, "uploaded", "", none⟩

/-- Concrete state for the C5 witness. -/
def stW5 : AppState := ⟨[dirW5], some 2, []⟩

/-- Concrete environment for the C5 witness: key `a.txt` is missing from the
store, key `b.txt` raises a lookup exception. -/
def envW5 : FetchEnv :=
  ⟨fun _ q => if q = "a.txt" then .ok none else .error "boom",
   .failure none⟩

/-- Witness for C5: the missing key yields not-found outside the failure
set, the throwing key yields a DB error inside it. -/
theorem fetchPatchRequiredFiles_uploaded_missing_vs_error_witness :
    (objGet (fetchPatchRequiredFiles envW5 stW5 2 ["a.txt", "b.txt"]).results "a.txt" =
       some ⟨none, some "File not found in uploaded data (may be deleted by patch)"⟩ ∧
     "a.txt" ∉ (fetchPatchRequiredFiles envW5 stW5 2 ["a.txt", "b.txt"]).failedFiles) ∧
    (objGet (fetchPatchRequiredFiles envW5 stW5 2 ["a.txt", "b.txt"]).results "b.txt" =
       some ⟨none, some ("DB error: " ++ "boom")⟩ ∧
     "b.txt" ∈ (fetchPatchRequiredFiles envW5 stW5 2 ["a.txt", "b.txt"]).failedFiles) :=
  ⟨(fetchPatchRequiredFiles_uploaded_missing_vs_error envW5 stW5 2 ["a.txt", "b.txt"]
      dirW5 "a.txt" rfl rfl (by simp)).1 rfl,
   (fetchPatchRequiredFiles_uploaded_missing_vs_error envW5 stW5 2 ["a.txt", "b.txt"]
      dirW5 "b.txt" rfl rfl (by simp)).2 "boom" rfl⟩

/-- C9: When the requested source id does not resolve to any registered
source, every requested path is marked with the `Target directory not found`
error, yet `state.failedFiles` — cleared at the start of the call and never
written on this branch — is empty afterwards. -/
theorem fetchPatchRequiredFiles_dirNotFound (env : FetchEnv) (st : AppState)
    (dirId : Nat) (filePaths : List String)
    (hd : findDirectory st.directories dirId = none) :
    (∀ p ∈ filePaths,
       objGet (fetchPatchRequiredFiles env st dirId filePaths).results p =
         some ⟨none, some "Target directory not found"⟩) ∧
    (fetchPatchRequiredFiles env st dirId filePaths).failedFiles = [] := by
  rw [fetch_none_eq env st dirId filePaths hd]
  refine ⟨fun p hp => ?_, rfl⟩
  simp [objGet_foldl_const, hp]

/-- Concrete state for the C9 witness: no registered sources, and a stale
failure entry that the call clears. -/
def stW9 : AppState := ⟨[], none, ["stale.txt"]⟩

/-- Concrete environment for the C9 witness. -/
def envW9 : FetchEnv := ⟨fun _ _ => .ok none, .failure none⟩

/-- Witness for C9 at a missing source id. -/
theorem fetchPatchRequiredFiles_dirNotFound_witness :
    findDirectory stW9.directories 7 = none ∧
    objGet (fetchPatchRequiredFiles envW9 stW9 7 ["x.txt"]).results "x.txt" =
      some ⟨none, some "Target directory not found"⟩ ∧
    (fetchPatchRequiredFiles envW9 stW9 7 ["x.txt"]).failedFiles = [] :=
  ⟨rfl,
   (fetchPatchRequiredFiles_dirNotFound envW9 stW9 7 ["x.txt"] rfl).1 "x.txt" (by simp),
   (fetchPatchRequiredFiles_dirNotFound envW9 stW9 7 ["x.txt"] rfl).2⟩

/-- Concrete remote source for the C1 instance. -/
def dirX1 : Directory := ⟨1, "path", "/root", none⟩

/-- Concrete state for the C1 instance. -/
def stX1 : AppState := ⟨[dirX1], some 1, []⟩

/-- Concrete environment for the C1 instance: the batch service answers
successfully but its `files` object contains no entry at all, so the single
requested path is absent from the response. -/
def envX1 : FetchEnv := ⟨fun _ _ => .ok none, .success []⟩

/-- Counterexample to C1 as stated: for a remote source and a successful
batch response whose files map lacks the requested path, the path's entry
carries the `File not found by server` message — not the claimed
`No response from server for this file.` one — and the path is NOT a member
of `state.failedFiles`. -/
theorem fetch_noResponse_counterexample :
    objGet (fetchPatchRequiredFiles envX1 stX1 1 ["a.txt"]).results "a.txt" =
      some ⟨none, some "File not found by server (may be deleted by patch)"⟩ ∧
    objGet (fetchPatchRequiredFiles envX1 stX1 1 ["a.txt"]).results "a.txt" ≠
      some ⟨none, some "No response from server for this file."⟩ ∧
    "a.txt" ∉ (fetchPatchRequiredFiles envX1 stX1 1 ["a.txt"]).failedFiles := by
  refine ⟨?_, ?_, ?_⟩ <;> decide

/-- C1 (amended): for a remote (`path`-kind) source, when the batch service
returns a successful response, a path present in the request but absent from
the response's files map resolves in the first mapping pass to the error
`File not found by server (may be deleted by patch)` — treated as a benign
not-found — and is NOT added to `state.failedFiles`; the
`No response from server for this file.` fallback never fires because that
first pass writes an entry for every requested path. -/
theorem fetch_missingFromResponse (env : FetchEnv) (st : AppState) (dirId : Nat)
    (filePaths : List String) (dir : Directory)
    (files : List (String × ServerFileResult)) (p : String)
    (hd : findDirectory st.directories dirId = some dir)
    (ht : dir.type = "path")
    (hb : env.batchResponse = .success files)
    (hp : p ∈ filePaths)
    (hmiss : objGet files (pathJoin dir.path p) = none) :
    objGet (fetchPatchRequiredFiles env st dirId filePaths).results p =
      some ⟨none, some "File not found by server (may be deleted by patch)"⟩ ∧
    p ∉ (fetchPatchRequiredFiles env st dirId filePaths).failedFiles := by
  have hne : filePaths ≠ [] := by rintro rfl; simp at hp
  rw [fetch_path_success_eq env st dirId filePaths dir files hd ht hb hne]
  constructor
  · simp [mapServer_results, hp, serverOutcome, hmiss]
  · simp [mapServer_failed, serverFails, hmiss]

/-- Witness for the amended C1 at the concrete instance. -/
theorem fetch_missingFromResponse_witness :
    objGet (fetchPatchRequiredFiles envX1 stX1 1 ["a.txt"]).results "a.txt" =
      some ⟨none, some "File not found by server (may be deleted by patch)"⟩ ∧
    "a.txt" ∉ (fetchPatchRequiredFiles envX1 stX1 1 ["a.txt"]).failedFiles :=
  fetch_missingFromResponse envX1 stX1 1 ["a.txt"] dirX1 [] "a.txt"
    rfl rfl rfl (by simp) rfl

/-- C8: Removing a source preserves the selection invariant: if the removed
source was selected, the selection falls back to the first remaining source
(or to none when the list empties); removing a non-selected source leaves
the selection unchanged; and a valid selection stays valid. -/
theorem removeSource_selection (st : AppState) (remId : Nat) :
    (st.selectedDirectoryId = some remId →
       (removeSource st remId).selectedDirectoryId =
         ((st.directories.filter (fun d => d.id != remId)).head?).map (fun d => d.id)) ∧
    (st.selectedDirectoryId = some remId →
       (removeSource st remId).directories = [] →
       (removeSource st remId).selectedDirectoryId = none) ∧
    (st.selectedDirectoryId ≠ some remId →
       (removeSource st remId).selectedDirectoryId = st.selectedDirectoryId) ∧
    ((st.selectedDirectoryId = none ∨
        ∃ d ∈ st.directories, st.selectedDirectoryId = some d.id) →
       ((removeSource st remId).selectedDirectoryId = none ∨
        ∃ d ∈ (removeSource st remId).directories,
          (removeSource st remId).selectedDirectoryId = some d.id)) := by
  refine ⟨?_, ?_, ?_, ?_⟩
  · intro h
    cases hf : st.directories.filter (fun d => d.id != remId) <;>
      simp [removeSource, h, hf]
  · intro h hnil
    simp only [removeSource] at hnil ⊢
    cases hf : st.directories.filter (fun d => d.id != remId) <;>
      simp [h, hf] at hnil ⊢
  · intro h
    simp [removeSource, h]
  · intro hinv
    by_cases hsel : st.selectedDirectoryId = some remId
    · cases hf : st.directories.filter (fun d => d.id != remId) with
      | nil => left; simp [removeSource, hsel, hf]
      | cons d rest =>
        right
        exact ⟨d, by simp [removeSource, hf], by simp [removeSource, hsel, hf]⟩
    · rcases hinv with hnone | ⟨d, hd, hdid⟩
      · left; simp [removeSource, hsel, hnone]
      · right
        have hne : d.id ≠ remId := by
          intro he
          exact hsel (by rw [hdid, he])
        exact ⟨d, by simp [removeSource, List.mem_filter, hd, hne],
               by simp [removeSource, hsel, hdid, hne]⟩

/-- Concrete sources for the C8 witness. -/
def dirW8a : Directory := ⟨1, "path", "/a", none⟩

/-- Second concrete source for the C8 witness. -/
def dirW8b : Directory := ⟨2, "uploaded", "", none⟩

/-- Concrete two-source state for the C8 witness, first source selected. -/
def stW8 : AppState := ⟨[dirW8a, dirW8b], some 1, []⟩

/-- Concrete one-source state for the C8 witness, its source selected. -/
def stW8e : AppState := ⟨[dirW8a], some 1, []⟩

/-- Witness for C8: removing the selected source falls back to the first
remaining one, removing a non-selected source keeps the selection, and
removing the only (selected) source leaves no selection. -/
theorem removeSource_selection_witness :
    (removeSource stW8 1).selectedDirectoryId = some 2 ∧
    (removeSource stW8 2).selectedDirectoryId = some 1 ∧
    (removeSource stW8e 1).selectedDirectoryId = none :=
  ⟨by rw [(removeSource_selection stW8 1).1 rfl]; rfl,
   by rw [(removeSource_selection stW8 2).2.2.1 (by decide)]; rfl,
   by rw [(removeSource_selection stW8e 1).1 rfl]; rfl⟩

/-- C7: `applyPatch` checks its preconditions before any network call — no
source selected; selected source of `uploaded` kind; source with no root
path; empty patch text — each failing one producing a distinct local error
result with zero transport calls, while a request that passes them all does
contact the transport. -/
theorem applyPatch_preconditions (tr : ApplyTransport) (st : AppState) (pc : String) :
    (st.selectedDirectoryId = none →
       applyPatch tr st pc = ⟨"Error: No project source selected.", true, 0⟩) ∧
    (∀ selId dir, st.selectedDirectoryId = some selId →
       findDirectory st.directories selId = some dir →
       ((dir.type = "uploaded" →
           applyPatch tr st pc =
             ⟨"Error: Cannot apply patch to uploaded directories.", true, 0⟩) ∧
        (dir.type ≠ "uploaded" → dir.path = "" →
           applyPatch tr st pc = ⟨"Error: Selected source has no valid path.", true, 0⟩) ∧
        (dir.type ≠ "uploaded" → dir.path ≠ "" → strTrim pc = "" →
           applyPatch tr st pc = ⟨"Error: Patch content is empty.", true, 0⟩) ∧
        (dir.type ≠ "uploaded" → dir.path ≠ "" → strTrim pc ≠ "" →
           (applyPatch tr st pc).networkCalls = 1))) ∧
    ([ "Error: No project source selected.",
       "Error: Cannot apply patch to uploaded directories.",
       "Error: Selected source has no valid path.",
       "Error: Patch content is empty."] : List String).Nodup := by
  refine ⟨?_, ?_, by decide⟩
  · intro h
    simp [applyPatch, h]
  · intro selId dir hsel hdir
    refine ⟨?_, ?_, ?_, ?_⟩
    · intro ht
      simp [applyPatch, hsel, hdir, ht]
    · intro ht hp
      simp [applyPatch, hsel, hdir, ht, hp]
    · intro ht hp hpc
      simp [applyPatch, hsel, hdir, ht, hp, hpc]
    · intro ht hp hpc
      cases tr with
      | threw msg => simp [applyPatch, hsel, hdir, ht, hp, hpc]
      | responded resp =>
        by_cases hok : (resp.ok && resp.success) = true <;>
          simp [applyPatch, hsel, hdir, ht, hp, hpc, hok]

/-- Transport stub for the C7 witness. -/
def trW7 : ApplyTransport := .threw "refused"

/-- C7 witness state: nothing selected. -/
def stW7a : AppState := ⟨[], none, []⟩

/-- C7 witness state: an `uploaded` source selected. -/
def stW7b : AppState := ⟨[⟨3, "uploaded", "", none⟩], some 3, []⟩

/-- C7 witness state: a `path` source with an empty root path selected. -/
def stW7c : AppState := ⟨[⟨4, "path", "", none⟩], some 4, []⟩

/-- C7 witness state: a valid `path` source selected. -/
def stW7d : AppState := ⟨[⟨5, "path", "/r", none⟩], some 5, []⟩

/-- Witness for C7: each precondition failure at a concrete state yields its
distinct local error with zero transport calls; the passing case makes the
call. -/
theorem applyPatch_preconditions_witness :
    applyPatch trW7 stW7a "diff" = ⟨"Error: No project source selected.", true, 0⟩ ∧
    applyPatch trW7 stW7b "diff" =
      ⟨"Error: Cannot apply patch to uploaded directories.", true, 0⟩ ∧
    applyPatch trW7 stW7c "diff" = ⟨"Error: Selected source has no valid path.", true, 0⟩ ∧
    applyPatch trW7 stW7d "" = ⟨"Error: Patch content is empty.", true, 0⟩ ∧
    (applyPatch trW7 stW7d "diff").networkCalls = 1 :=
  ⟨(applyPatch_preconditions trW7 stW7a "diff").1 rfl,
   ((applyPatch_preconditions trW7 stW7b "diff").2.1 3
      (⟨3, "uploaded", "", none⟩ : Directory) rfl rfl).1 rfl,
   ((applyPatch_preconditions trW7 stW7c "diff").2.1 4
      (⟨4, "path", "", none⟩ : Directory) rfl rfl).2.1 (by decide) rfl,
   ((applyPatch_preconditions trW7 stW7d "").2.1 5
      (⟨5, "path", "/r", none⟩ : Directory) rfl rfl).2.2.1 (by decide) (by decide) rfl,
   ((applyPatch_preconditions trW7 stW7d "diff").2.1 5
      (⟨5, "path", "/r", none⟩ : Directory) rfl rfl).2.2.2 (by decide) (by decide) (by decide)⟩

/-!
## Tree Builder conflict policy and invariants
-/

theorem addParts_terminalFolderConflict (parts : List String) :
    ∀ t done fp, terminalFolderConflict t parts = true →
      addParts t parts done fp false = t := by
  induction parts with
  | nil =>
    intro t done fp h
    simp [terminalFolderConflict] at h
  | cons p rest ih =>
    intro t done fp h
    cases rest with
    | nil =>
      cases hg : objGet t p with
      | none => simp [terminalFolderConflict, hg] at h
      | some node =>
        cases node with
        | file fpath => simp [terminalFolderConflict, hg] at h
        | folder fpath ch => simp [addParts, hg]
    | cons next rest2 =>
      cases hg : objGet t p with
      | none => simp [terminalFolderConflict, hg] at h
      | some node =>
        cases node with
        | file fpath => simp [terminalFolderConflict, hg] at h
        | folder fpath ch =>
          have h2 : terminalFolderConflict ch (next :: rest2) = true := by
            simpa [terminalFolderConflict, hg] using h
          have h3 := ih ch (done ++ [p]) fp h2
          have h4 : addParts t (p :: next :: rest2) done fp false =
              objSet t p (.folder fpath
                (addParts ch (next :: rest2) (done ++ [p]) fp false)) := by
            simp [addParts, hg]
          rw [h4, h3]
          exact objSet_of_objGet t p _ hg

theorem addParts_intermediateFileConflict (parts : List String) :
    ∀ t done fp b, intermediateFileConflict t parts = true →
      addParts t parts done fp b = t := by
  induction parts with
  | nil =>
    intro t done fp b h
    simp [intermediateFileConflict] at h
  | cons p rest ih =>
    intro t done fp b h
    cases rest with
    | nil => simp [intermediateFileConflict] at h
    | cons next rest2 =>
      cases hg : objGet t p with
      | none => simp [intermediateFileConflict, hg] at h
      | some node =>
        cases node with
        | file fpath => simp [addParts, hg]
        | folder fpath ch =>
          have h2 : intermediateFileConflict ch (next :: rest2) = true := by
            simpa [intermediateFileConflict, hg] using h
          have h3 := ih ch (done ++ [p]) fp b h2
          have h4 : addParts t (p :: next :: rest2) done fp b =
              objSet t p (.folder fpath
                (addParts ch (next :: rest2) (done ++ [p]) fp b)) := by
            simp [addParts, hg]
          rw [h4, h3]
          exact objSet_of_objGet t p _ hg

/-- C4: Tree insertion obeys the conflict policy: if the terminal path
segment already exists as a folder node, the file insertion is skipped and
the tree (in particular that folder node) is left unchanged; if an
intermediate segment already exists as a file node, the remaining subtree
insertion is aborted and the tree is left unchanged. Both conflicts are
non-fatal: `addToTree` still returns (the conflict report itself is a
console diagnostic outside the model). -/
theorem addToTree_conflict_policy (tree : List (String × TreeNode)) (filePath : String) :
    (terminalFolderConflict tree (splitParts filePath) = true →
       addToTree tree filePath false = tree) ∧
    (intermediateFileConflict tree (splitParts filePath) = true →
       addToTree tree filePath false = tree) :=
  ⟨fun h => addParts_terminalFolderConflict (splitParts filePath) tree [] filePath h,
   fun h => addParts_intermediateFileConflict (splitParts filePath) tree [] filePath false h⟩

/-- Concrete tree for the C4 witness: a folder `src` and a file `b.txt`. -/
def treeW4 : List (String × TreeNode) :=
  [("src", .folder "src" [("a.txt", .file "src/a.txt")]), ("b.txt", .file "b.txt")]

/-- Witness for C4: inserting the file `src` over the existing folder is
skipped; inserting `b.txt/c.txt` through the existing file `b.txt` aborts;
the tree is unchanged in both cases. -/
theorem addToTree_conflict_policy_witness :
    (terminalFolderConflict treeW4 (splitParts "src") = true ∧
     addToTree treeW4 "src" false = treeW4) ∧
    (intermediateFileConflict treeW4 (splitParts "b.txt/c.txt") = true ∧
     addToTree treeW4 "b.txt/c.txt" false = treeW4) :=
  ⟨⟨rfl, (addToTree_conflict_policy treeW4 "src").1 rfl⟩,
   ⟨rfl, (addToTree_conflict_policy treeW4 "b.txt/c.txt").2 rfl⟩⟩

theorem addParts_terminalFileConflict (parts : List String) :
    ∀ t done fp, terminalFileConflict t parts = true →
      lookupPath (addParts t parts done fp false) parts = some (.file fp) := by
  induction parts with
  | nil =>
    intro t done fp h
    simp [terminalFileConflict] at h
  | cons p rest ih =>
    intro t done fp h
    cases rest with
    | nil =>
      cases hg : objGet t p with
      | none => simp [terminalFileConflict, hg] at h
      | some node =>
        cases node with
        | folder fpath ch => simp [terminalFileConflict, hg] at h
        | file fpath => simp [addParts, lookupPath, hg, objGet_objSet]
    | cons next rest2 =>
      cases hg : objGet t p with
      | none => simp [terminalFileConflict, hg] at h
      | some node =>
        cases node with
        | file fpath => simp [terminalFileConflict, hg] at h
        | folder fpath ch =>
          have h2 : terminalFileConflict ch (next :: rest2) = true := by
            simpa [terminalFileConflict, hg] using h
          have h3 := ih ch (done ++ [p]) fp h2
          have h4 : addParts t (p :: next :: rest2) done fp false =
              objSet t p (.folder fpath
                (addParts ch (next :: rest2) (done ++ [p]) fp false)) := by
            simp [addParts, hg]
          rw [h4]
          simp [lookupPath, objGet_objSet, h3]

theorem addParts_idem (parts : List String) :
    ∀ t done fp, addParts (addParts t parts done fp false) parts done fp false =
      addParts t parts done fp false := by
  induction parts with
  | nil => intro t done fp; simp [addParts]
  | cons p rest ih =>
    intro t done fp
    cases rest with
    | nil =>
      cases hg : objGet t p with
      | none => simp [addParts, hg, objGet_objSet, objSet_objSet]
      | some node =>
        cases node with
        | file fpath => simp [addParts, hg, objGet_objSet, objSet_objSet]
        | folder fpath ch => simp [addParts, hg]
    | cons next rest2 =>
      cases hg : objGet t p with
      | none =>
        have hch := ih [] (done ++ [p]) fp
        have h4 : addParts t (p :: next :: rest2) done fp false =
            objSet t p (.folder (String.intercalate "/" (done ++ [p]))
              (addParts [] (next :: rest2) (done ++ [p]) fp false)) := by
          simp [addParts, hg]
        rw [h4]
        have h5 : addParts (objSet t p (.folder (String.intercalate "/" (done ++ [p]))
              (addParts [] (next :: rest2) (done ++ [p]) fp false)))
              (p :: next :: rest2) done fp false =
            objSet (objSet t p (.folder (String.intercalate "/" (done ++ [p]))
              (addParts [] (next :: rest2) (done ++ [p]) fp false))) p
              (.folder (String.intercalate "/" (done ++ [p]))
                (addParts (addParts [] (next :: rest2) (done ++ [p]) fp false)
                  (next :: rest2) (done ++ [p]) fp false)) := by
          simp [addParts, objGet_objSet]
        rw [h5, hch, objSet_objSet]
      | some node =>
        cases node with
        | file fpath => simp [addParts, hg]
        | folder fpath ch =>
          have hch := ih ch (done ++ [p]) fp
          have h4 : addParts t (p :: next :: rest2) done fp false =
              objSet t p (.folder fpath
                (addParts ch (next :: rest2) (done ++ [p]) fp false)) := by
            simp [addParts, hg]
          rw [h4]
          have h5 : addParts (objSet t p (.folder fpath
                (addParts ch (next :: rest2) (done ++ [p]) fp false)))
                (p :: next :: rest2) done fp false =
              objSet (objSet t p (.folder fpath
                (addParts ch (next :: rest2) (done ++ [p]) fp false))) p
                (.folder fpath
                  (addParts (addParts ch (next :: rest2) (done ++ [p]) fp false)
                    (next :: rest2) (done ++ [p]) fp false)) := by
            simp [addParts, objGet_objSet]
          rw [h5, hch, objSet_objSet]

theorem all_keys_ne_iff {α : Type} (t : List (String × α)) (k : String) :
    (t.all (fun kv => kv.1 != k)) = true ↔ k ∉ keysOf t := by
  constructor
  · intro h hmem
    simp only [keysOf, List.mem_map] at hmem
    obtain ⟨kv, hkv, hk⟩ := hmem
    simp only [List.all_eq_true, bne_iff_ne] at h
    exact h kv hkv hk
  · intro h
    simp only [List.all_eq_true, bne_iff_ne]
    intro kv hkv hk
    apply h
    simp only [keysOf, List.mem_map]
    exact ⟨kv, hkv, hk⟩

theorem treeWF_objGet (t : List (String × TreeNode)) (k : String) (v : TreeNode)
    (hwf : treeWF t = true) (h : objGet t k = some v) : nodeWF v = true := by
  induction t with
  | nil => simp [objGet] at h
  | cons kv t ih =>
    obtain ⟨k1, v1⟩ := kv
    simp only [treeWF, Bool.and_eq_true] at hwf
    by_cases h1 : k1 = k
    · subst h1
      have h2 : v1 = v := by simpa [objGet] using h
      rw [← h2]
      exact hwf.1.2
    · simp only [objGet, if_neg h1] at h
      exact ih hwf.2 h

theorem treeWF_objSet (t : List (String × TreeNode)) (k : String) (v : TreeNode)
    (hwf : treeWF t = true) (hv : nodeWF v = true) :
    treeWF (objSet t k v) = true := by
  induction t with
  | nil => simp [objSet, treeWF, hv]
  | cons kv t ih =>
    obtain ⟨k1, v1⟩ := kv
    simp only [treeWF, Bool.and_eq_true] at hwf
    by_cases h1 : k1 = k
    · subst h1
      simp only [objSet, if_pos rfl, treeWF, Bool.and_eq_true]
      exact ⟨⟨hwf.1.1, hv⟩, hwf.2⟩
    · simp only [objSet, if_neg h1, treeWF, Bool.and_eq_true]
      refine ⟨⟨?_, hwf.1.2⟩, ih hwf.2⟩
      rw [all_keys_ne_iff, keysOf_objSet]
      have hk1 : k1 ∉ keysOf t := (all_keys_ne_iff t k1).mp hwf.1.1
      by_cases hkt : k ∈ keysOf t
      · simpa [hkt]
      · simp only [hkt, if_false, List.mem_append, List.mem_singleton]
        rintro (hmem | hmem)
        · exact hk1 hmem
        · exact h1 hmem

theorem addParts_treeWF (parts : List String) :
    ∀ t done fp b, treeWF t = true → treeWF (addParts t parts done fp b) = true := by
  induction parts with
  | nil =>
    intro t done fp b h
    simpa [addParts]
  | cons p rest ih =>
    intro t done fp b h
    cases rest with
    | nil =>
      cases b with
      | true =>
        cases hg : objGet t p with
        | none =>
          have : addParts t [p] done fp true = objSet t p (.folder fp []) := by
            simp [addParts, hg]
          rw [this]
          exact treeWF_objSet _ _ _ h (by simp [nodeWF, treeWF])
        | some node => simpa [addParts, hg]
      | false =>
        cases hg : objGet t p with
        | none =>
          have : addParts t [p] done fp false = objSet t p (.file fp) := by
            simp [addParts, hg]
          rw [this]
          exact treeWF_objSet _ _ _ h (by simp [nodeWF])
        | some node =>
          cases node with
          | file fpath =>
            have : addParts t [p] done fp false = objSet t p (.file fp) := by
              simp [addParts, hg]
            rw [this]
            exact treeWF_objSet _ _ _ h (by simp [nodeWF])
          | folder fpath ch => simpa [addParts, hg]
    | cons next rest2 =>
      cases hg : objGet t p with
      | none =>
        have h4 : addParts t (p :: next :: rest2) done fp b =
            objSet t p (.folder (String.intercalate "/" (done ++ [p]))
              (addParts [] (next :: rest2) (done ++ [p]) fp b)) := by
          simp [addParts, hg]
        rw [h4]
        refine treeWF_objSet _ _ _ h ?_
        show treeWF (addParts [] (next :: rest2) (done ++ [p]) fp b) = true
        exact ih [] (done ++ [p]) fp b (by simp [treeWF])
      | some node =>
        cases node with
        | file fpath => simpa [addParts, hg]
        | folder fpath ch =>
          have hch : treeWF ch = true := treeWF_objGet t p _ h hg
          have h4 : addParts t (p :: next :: rest2) done fp b =
              objSet t p (.folder fpath
                (addParts ch (next :: rest2) (done ++ [p]) fp b)) := by
            simp [addParts, hg]
          rw [h4]
          refine treeWF_objSet _ _ _ h ?_
          show treeWF (addParts ch (next :: rest2) (done ++ [p]) fp b) = true
          exact ih ch (done ++ [p]) fp b hch

/-- C10: inserting a file path whose terminal segment already exists as a
non-folder node replaces that node with the new file node (last insert
wins); re-inserting the same file path is idempotent; and insertion
preserves the invariant that no parent holds two children with the same
name. -/
theorem addToTree_lastInsertWins (tree : List (String × TreeNode)) (filePath : String)
    (hwf : treeWF tree = true) :
    (terminalFileConflict tree (splitParts filePath) = true →
       lookupPath (addToTree tree filePath false) (splitParts filePath) =
         some (.file filePath)) ∧
    addToTree (addToTree tree filePath false) filePath false =
      addToTree tree filePath false ∧
    treeWF (addToTree tree filePath false) = true :=
  ⟨fun h => addParts_terminalFileConflict _ tree [] filePath h,
   addParts_idem _ tree [] filePath,
   addParts_treeWF _ tree [] filePath false hwf⟩

/-- Concrete tree for the C10 witness: `a.txt` exists as a file node with a
different stored path. -/
def treeW10 : List (String × TreeNode) := [("a.txt", .file "zzz")]

/-- Witness for C10: re-inserting `a.txt` overwrites the existing file node,
is idempotent, and keeps the tree well-formed. -/
theorem addToTree_lastInsertWins_witness :
    treeWF treeW10 = true ∧
    lookupPath (addToTree treeW10 "a.txt" false) (splitParts "a.txt") =
      some (.file "a.txt") ∧
    addToTree (addToTree treeW10 "a.txt" false) "a.txt" false =
      addToTree treeW10 "a.txt" false ∧
    treeWF (addToTree treeW10 "a.txt" false) = true :=
  ⟨rfl,
   (addToTree_lastInsertWins treeW10 "a.txt" rfl).1 rfl,
   (addToTree_lastInsertWins treeW10 "a.txt" rfl).2.1,
   (addToTree_lastInsertWins treeW10 "a.txt" rfl).2.2⟩

/-- A diff record contributes the stripped path `x` to the required set. -/
def requiresOld (p : Patch) (x : String) : Prop :=
  ∃ old, p.oldFileName = some old ∧ old ≠ "" ∧ old ≠ "/dev/null" ∧
    stripLeadingA old = x

theorem requiredFilesRelative_mem_aux (patches : List Patch) :
    ∀ (acc : List String) (x : String),
      (x ∈ patches.foldl
        (fun acc patch =>
          match patch.oldFileName with
          | some old =>
            if old ≠ "" ∧ old ≠ "/dev/null" then setAdd acc (stripLeadingA old) else acc
          | none => acc) acc ↔
      x ∈ acc ∨ ∃ p, p ∈ patches ∧ requiresOld p x) := by
  induction patches with
  | nil => intro acc x; simp
  | cons p rest ih =>
    intro acc x
    simp only [List.foldl_cons, ih, List.mem_cons]
    cases ho : p.oldFileName with
    | none =>
      have hP : ¬ requiresOld p x := by simp [requiresOld, ho]
      simp only [ho]
      constructor
      · rintro (h1 | ⟨q, hq, hr⟩)
        · exact Or.inl h1
        · exact Or.inr ⟨q, Or.inr hq, hr⟩
      · rintro (h1 | ⟨q, hq | hq, hr⟩)
        · exact Or.inl h1
        · exact absurd (hq ▸ hr) hP
        · exact Or.inr ⟨q, hq, hr⟩
    | some old =>
      by_cases hcond : old ≠ "" ∧ old ≠ "/dev/null"
      · have hreq : requiresOld p x ↔ stripLeadingA old = x := by
          simp [requiresOld, ho, hcond.1, hcond.2]
        simp only [ho]
        rw [if_pos hcond]
        simp only [mem_setAdd]
        constructor
        · rintro ((h1 | h1) | ⟨q, hq, hr⟩)
          · exact Or.inl h1
          · exact Or.inr ⟨p, Or.inl rfl, hreq.mpr h1.symm⟩
          · exact Or.inr ⟨q, Or.inr hq, hr⟩
        · rintro (h1 | ⟨q, hq | hq, hr⟩)
          · exact Or.inl (Or.inl h1)
          · exact Or.inl (Or.inr (hreq.mp (hq ▸ hr)).symm)
          · exact Or.inr ⟨q, hq, hr⟩
      · have hP : ¬ requiresOld p x := by
          simp only [requiresOld, ho, Option.some.injEq]
          rintro ⟨old2, rfl, h2, h3, h4⟩
          exact hcond ⟨h2, h3⟩
        simp only [ho]
        rw [if_neg hcond]
        constructor
        · rintro (h1 | ⟨q, hq, hr⟩)
          · exact Or.inl h1
          · exact Or.inr ⟨q, Or.inr hq, hr⟩
        · rintro (h1 | ⟨q, hq | hq, hr⟩)
          · exact Or.inl h1
          · exact absurd (hq ▸ hr) hP
          · exact Or.inr ⟨q, hq, hr⟩

theorem requiredFilesRelative_nodup_aux (patches : List Patch) :
    ∀ acc : List String, acc.Nodup →
      (patches.foldl
        (fun acc patch =>
          match patch.oldFileName with
          | some old =>
            if old ≠ "" ∧ old ≠ "/dev/null" then setAdd acc (stripLeadingA old) else acc
          | none => acc) acc).Nodup := by
  induction patches with
  | nil => intro acc h; simpa
  | cons p rest ih =>
    intro acc h
    simp only [List.foldl_cons]
    apply ih
    cases ho : p.oldFileName with
    | none => simpa [ho]
    | some old =>
      by_cases hcond : old ≠ "" ∧ old ≠ "/dev/null"
      · simpa [ho, hcond] using nodup_setAdd _ _ h
      · simpa [ho, hcond]

/-- C6: Required-path extraction over a sequence of diff records produces the
deduplicated set of truthy `oldFileName`s that are not the `'/dev/null'`
sentinel, each stripped of a leading `a/` prefix; in particular, for a patch
referencing `a/foo.txt` → `b/foo.txt` with one `-old` / `+new` hunk the
required set is exactly `["foo.txt"]`. -/
theorem requiredFilesRelative_spec (patches : List Patch) :
    ((requiredFilesRelative patches).Nodup ∧
     ∀ x, x ∈ requiredFilesRelative patches ↔
       ∃ p, p ∈ patches ∧ ∃ old, p.oldFileName = some old ∧ old ≠ "" ∧
         old ≠ "/dev/null" ∧ stripLeadingA old = x) ∧
    requiredFilesRelative
      [⟨some "a/foo.txt", some "b/foo.txt", [⟨some "@@ -1 +1 @@", ["-old", "+new"]⟩]⟩] =
      ["foo.txt"] :=
  ⟨⟨requiredFilesRelative_nodup_aux patches [] (by simp),
    fun x => by
      have h := requiredFilesRelative_mem_aux patches [] x
      simpa [requiredFilesRelative, requiresOld] using h⟩,
   rfl⟩

/-- Concrete local source for the C2 instance. -/
def dirX2 : Directory := ⟨2, "uploaded", "", none⟩

/-- Concrete state for the C2 instance. -/
def stX2 : AppState := ⟨[dirX2], some 2, []⟩

/-- Concrete environment for the C2 instance: jsdiff parses the text into a
single creation record (`oldFileName` is the `/dev/null` sentinel), so no
non-deletion path is required. -/
def envX2 : PreviewEnv :=
  ⟨.parsed [⟨some "/dev/null", some "b/bar.txt", []⟩],
   ⟨fun _ _ => .ok none, .failure none⟩⟩

/-- Counterexample to C2 as stated: a parsed patch with no required
non-deletion paths yields the empty preview body, but its
`Patch seems empty or only affects /dev/null.` status is set with the error
flag — it IS an error condition, contradicting the claim. -/
theorem generatePatchPreview_noPaths_counterexample :
    generatePatchPreview envX2 stX2 "diff" =
      ⟨"", "Patch seems empty or only affects /dev/null.", true, []⟩ ∧
    (generatePatchPreview envX2 stX2 "diff").statusIsError = true := by
  constructor <;> rfl

/-- C2 (amended): a preview request with empty patch text produces an empty
body and the non-error `Paste patch content to see preview.` status; a
request whose parsed diff records yield no required non-deletion paths
produces an empty body but the `Patch seems empty or only affects
/dev/null.` status flagged as an error. -/
theorem generatePatchPreview_empty_or_noPaths (env : PreviewEnv) (st : AppState)
    (patchContent : String) :
    (strTrim patchContent = "" →
       generatePatchPreview env st patchContent =
         ⟨"", "Paste patch content to see preview.", false, []⟩) ∧
    (∀ patches selId dir,
       strTrim patchContent ≠ "" →
       st.selectedDirectoryId = some selId →
       findDirectory st.directories selId = some dir →
       jsTruthy dir.error = false →
       parsePatchModel env.parseOutcome patchContent = (some patches, none) →
       requiredFilesRelative patches = [] →
       generatePatchPreview env st patchContent =
         ⟨"", "Patch seems empty or only affects /dev/null.", true, []⟩) := by
  constructor
  · intro h
    simp [generatePatchPreview, h]
  · intro patches selId dir hne hsel hdir herr hparse hreq
    simp [generatePatchPreview, hne, hsel, hdir, herr, hparse, hreq]

/-- Witness for the amended C2 at two concrete inputs: empty text, and a
creation-only patch. -/
theorem generatePatchPreview_empty_or_noPaths_witness :
    generatePatchPreview envX2 stX2 "" =
      ⟨"", "Paste patch content to see preview.", false, []⟩ ∧
    generatePatchPreview envX2 stX2 "diff" =
      ⟨"", "Patch seems empty or only affects /dev/null.", true, []⟩ :=
  ⟨(generatePatchPreview_empty_or_noPaths envX2 stX2 "").1 rfl,
   (generatePatchPreview_empty_or_noPaths envX2 stX2 "diff").2
     [⟨some "/dev/null", some "b/bar.txt", []⟩] 2 dirX2
     (by decide) rfl rfl rfl rfl rfl⟩
